import Mathlib

/-!
# Verification of the pySCENIC interchange-artifact assembler

Shallow embedding of `src/pyscenic/export.py` (`export2loom` and
`export_regulons`) together with theorems settling the frozen claims about
the loom-container export and the GraphML regulon export.

Conventions of the embedding:
* pandas `DataFrame`s become a record of row labels, column labels and a
  row-major list of rows of rational values (no floating-point arithmetic is
  performed by the exporter on these values; they are only moved around,
  compared with `0`, and transposed, so `Rat` carries them faithfully);
* Python dictionaries become association lists in insertion order;
* raised exceptions become `Except` errors.
-/

set_option autoImplicit false

namespace PyScenic

/-- A pandas-style data frame: `index` holds the row labels, `columns` the
column labels, and `values` the row-major matrix of entries
(`values.length = index.length`, each row of width `columns.length` for a
well-formed frame).  For the expression matrix the rows are cells and the
columns are genes. -/
structure DataFrame where
  index : List String
  columns : List String
  values : List (List Rat)
deriving DecidableEq

/-- Modelled from the spec: the `Regulon` entity lives in `pyscenic/genesig.py`,
which is not among the provided source files.  Per the spec's data model (§3) a
regulon carries a name, a transcription factor, a target-gene→weight mapping,
and a `context` of free-form tags; per §9 the context is modelled as an ordered
string→string mapping (tag → associated datum) whose tag set is its key list.
`genes`, used by `export2loom`, is the list of target-gene names. -/
structure Regulon where
  name : String
  transcription_factor : String
  gene2weight : List (String × Rat)
  context : List (String × String)
deriving DecidableEq

/-- The target-gene names of a regulon: the keys of `gene2weight`. -/
def Regulon.genes (r : Regulon) : List String :=
  r.gene2weight.map Prod.fst

/-- Modelled from the spec: threshold values are produced by `binarize`
(`pyscenic/binarization.py`), absent from the provided sources.  Per the spec
(§3, §9) a threshold record's value is either a plain scalar or a tuple whose
first element is the scalar threshold; the tuple case is a head scalar plus
arbitrary extra components. -/
inductive ThresholdVal where
  | scalar (v : Rat)
  | tup (v : Rat) (rest : List Rat)
deriving DecidableEq

/-- `line 105`: `threshold if isinstance(threshold, float) else threshold[0]` —
resolve a polymorphic threshold to its plain scalar. -/
def defaultThresholdValue : ThresholdVal → Rat
  | .scalar v => v
  | .tup v _ => v

/-- A value of the cluster column produced by the two chained pandas
`.replace` calls (`line 77`): either an integer cluster index (a cell whose
annotation was found in the name→index mapping) or a leftover string (a value
that neither replacement dictionary matched). -/
inductive ClusterVal where
  | str (s : String)
  | idx (n : Nat)
deriving DecidableEq

/-- One entry of the `clusters` list inside the `clusterings` metadata
(`line 125`): `{"id": idx, "description": name}`. -/
structure ClusterDesc where
  id : Nat
  description : String
deriving DecidableEq

/-- The single clustering descriptor of the metadata (`lines 121-126`). -/
structure Clustering where
  id : Nat
  group : String
  name : String
  clusters : List ClusterDesc
deriving DecidableEq

/-- An annotation descriptor of the metadata (`lines 117-120`). -/
structure AnnotationDesc where
  name : String
  values : List String
deriving DecidableEq

/-- An embedding descriptor of the metadata (`lines 113-116`). -/
structure EmbeddingDesc where
  id : Nat
  name : String
deriving DecidableEq

/-- One per-regulon threshold record of the metadata (`lines 104-108`). -/
structure RegulonThreshold where
  regulon : String
  defaultThresholdValue : Rat
  defaultThresholdName : String
  allThresholds : List (String × Rat)
  motifData : String
deriving DecidableEq

/-- The nested `MetaData` object (`lines 112-128`). -/
structure MetaData where
  embeddings : List EmbeddingDesc
  annotations : List AnnotationDesc
  clusterings : List Clustering
  regulonThresholds : List RegulonThreshold
deriving DecidableEq

/-- The content of the loom container file assembled by `export2loom`:
the primary matrix (`matrix=ex_mtx.T.values`), the row attributes
(`Gene`, `Regulons`), the column attributes (`CellID`, `nGene`, `Embedding`,
`RegulonsAUC`, `Clusterings`, `ClusterID`) and the file attributes
(`title`, `MetaData`, `Genome`, `SCopeTreeL1..3`). -/
structure LoomFile where
  matrix : List (List Rat)
  gene_names : List String
  regulonNames : List String
  regulon_assignment : List (List Nat)
  cell_ids : List String
  nGene : List Nat
  embedding : List (Rat × Rat)
  aucNames : List String
  auc : List (List Rat)
  clusterings : List ClusterVal
  clusterID : List ClusterVal
  title : String
  metadata : MetaData
  genome : String
  scopeTreeAttrs : List (String × String)
deriving DecidableEq

/-- The failure modes of the export pipeline: the `assert` on the category
tree depth (`line 133`; the spec calls it `TreeDepthExceededError`) and the
shape validation of the container writer (the spec's `ShapeMismatchError`). -/
inductive ExportError where
  | shapeMismatch
  | treeDepthExceeded
deriving DecidableEq

/-- `lines 57-59`: number of genes detected per cell — the count of non-zero
expression values in each cell row. -/
def nGenesPerCell (ex_mtx : DataFrame) : List Nat :=
  ex_mtx.values.map fun row => row.countP fun v => v != 0

/-- `lines 62-70`: the regulon gene-membership indicator matrix, rows indexed
by the genes (`ex_mtx.columns`), one column per regulon;
`data[:, idx] = np.isin(genes, regulon.genes)`. -/
def regulonAssignment (genes : List String) (regulons : List Regulon) : List (List Nat) :=
  genes.map fun g => regulons.map fun r => if g ∈ r.genes then 1 else 0

/-- `line 74`, inner part: `sorted(set(cell_annotations.values()))` — the
distinct annotation values in ascending string order. -/
def sortedAnnotationValues (cell_annotations : List (String × String)) : List String :=
  ((cell_annotations.map Prod.snd).dedup).mergeSort fun a b => decide (a ≤ b)

/-- `line 74`: `dict(map(reversed, enumerate(sorted(set(...)))))` — the cluster
name→index mapping, in insertion order. -/
def name2idx (cell_annotations : List (String × String)) : List (String × Nat) :=
  (sortedAnnotationValues cell_annotations).enum.map fun p => (p.2, p.1)

/-- `lines 75-77`: the value the two chained `.replace` calls leave in the
cluster column for one cell ID — the ID is first replaced by its annotation
(if any), and the result then by its cluster index (if any); values matched by
neither dictionary stay as they are. -/
def clusterValue (cell_annotations : List (String × String))
    (n2i : List (String × Nat)) (cellId : String) : ClusterVal :=
  let s := (cell_annotations.lookup cellId).getD cellId
  match n2i.lookup s with
  | some i => .idx i
  | none => .str s

/-- `lines 98-102`: the first context tag ending in `.png`, else `""`. -/
def fetch_logo (context : List (String × String)) : String :=
  match context.find? (fun p => p.1.endsWith ".png") with
  | some p => p.1
  | none => ""

/-- `line 103` and the `.get(name, "")` of `line 108`: the logo of the last
regulon carrying the given name (dict-comprehension semantics: later
duplicates overwrite earlier ones), else `""`. -/
def name2logo (regulons : List Regulon) (name : String) : String :=
  match (regulons.reverse).find? (fun r => r.name == name) with
  | some r => fetch_logo r.context
  | none => ""

/-- `lines 104-108`: one per-regulon threshold record of the metadata. -/
def mkRegulonThreshold (regulons : List Regulon) (p : String × ThresholdVal) :
    RegulonThreshold :=
  { regulon := p.1
    defaultThresholdValue := defaultThresholdValue p.2
    defaultThresholdName := "guassian_mixture_split"
    allThresholds := [("guassian_mixture_split", defaultThresholdValue p.2)]
    motifData := name2logo regulons p.1 }

/-- `lines 104-108`: the list of threshold records, one per entry of
`auc_thresholds.iteritems()`. -/
def regulonThresholds (regulons : List Regulon)
    (auc_thresholds : List (String × ThresholdVal)) : List RegulonThreshold :=
  auc_thresholds.map (mkRegulonThreshold regulons)

/-- `lines 134-135`: the three `SCopeTreeL1..3` file attributes, the tree
entries padded with `""` to exactly three levels
(`islice(chain(tree_structure, repeat("")), 3)`). -/
def mkScopeTreeAttrs (tree_structure : List String) : List (String × String) :=
  ((tree_structure ++ List.replicate 3 "").take 3).enum.map fun p =>
    ("SCopeTreeL" ++ toString (p.1 + 1), p.2)

/-- `os.path.basename` for POSIX paths: the part after the last `/`. -/
def basename (p : String) : String :=
  ((p.splitOn "/").getLastD "")

/-- The root part of `os.path.splitext`: everything before the last `.`,
except that leading dots of the name never start an extension. -/
def splitextStem (b : String) : String :=
  let cs := b.toList
  let lead := (cs.takeWhile (fun c => c = '.')).length
  let rest := cs.drop lead
  if rest.contains '.' then
    String.mk (cs.take (lead + (rest.length - 1 - (rest.reverse.indexOf '.'))))
  else b

/-- The transpose of a row-major rectangular matrix with `ncols` columns
(`ex_mtx.T.values` of `line 143`): entry `(j, i)` of the result is entry
`(i, j)` of the input. -/
def transposeMtx (rows : List (List Rat)) (ncols : Nat) : List (List Rat) :=
  (List.range ncols).map fun j => rows.map fun row => row.getD j 0

/-- `lines 53-135`: assembling the full content of the loom file — primary
matrix in transposed orientation, row/column attribute tables and the general
(file) attributes, including the serialized metadata. -/
def buildLoom (ex_mtx : DataFrame) (regulons : List Regulon)
    (cell_annotations : List (String × String)) (out_fname : String)
    (tree_structure : List String) (title : Option String) (nomenclature : String)
    (tsne_embedding_mtx : List (Rat × Rat)) (auc_mtx : DataFrame)
    (auc_thresholds : List (String × ThresholdVal)) : LoomFile :=
  let n2i := name2idx cell_annotations
  { matrix := transposeMtx ex_mtx.values ex_mtx.columns.length
    gene_names := ex_mtx.columns
    regulonNames := regulons.map Regulon.name
    regulon_assignment := regulonAssignment ex_mtx.columns regulons
    cell_ids := ex_mtx.index
    nGene := nGenesPerCell ex_mtx
    embedding := tsne_embedding_mtx
    aucNames := auc_mtx.columns
    auc := auc_mtx.values
    clusterings := ex_mtx.index.map (clusterValue cell_annotations n2i)
    clusterID := ex_mtx.index.map (clusterValue cell_annotations n2i)
    title := match title with
      | some t => t
      | none => splitextStem (basename out_fname)
    metadata :=
      { embeddings := [⟨0, "tSNE (default)"⟩]
        annotations := [⟨"", []⟩]
        clusterings := [⟨0, "celltype", "Cell Type", n2i.map fun p => ⟨p.2, p.1⟩⟩]
        regulonThresholds := regulonThresholds regulons auc_thresholds }
    genome := nomenclature
    scopeTreeAttrs := mkScopeTreeAttrs tree_structure }

/-- Dimensional consistency between the primary matrix (genes × cells, so
`nrows` genes and `ncols` cells) and every attribute table attached to it:
row attributes have one entry per gene, column attributes one per cell. -/
def shapesOk (nrows ncols : Nat) (f : LoomFile) : Bool :=
  f.matrix.length == nrows &&
  f.matrix.all (fun row => row.length == ncols) &&
  f.gene_names.length == nrows &&
  f.regulon_assignment.length == nrows &&
  f.cell_ids.length == ncols &&
  f.nGene.length == ncols &&
  f.embedding.length == ncols &&
  f.auc.length == ncols &&
  f.clusterings.length == ncols &&
  f.clusterID.length == ncols

/-- Modelled from the spec: the container-writing step of `line 142`
(`lp.create`) is a call into the external loompy library, whose code is not
among the provided sources.  Per the spec (§4.4, §7) the writer validates the
row/column counts of every attribute table against the primary matrix before
the container is opened for writing: a disagreement fails with
`ShapeMismatchError` and nothing is written, otherwise the file is written in
full.  The `Except` result encodes this atomicity — an error carries no file
content at all, a success carries the complete file. -/
def lpCreate (nrows ncols : Nat) (f : LoomFile) : Except ExportError LoomFile :=
  if shapesOk nrows ncols f then .ok f else .error .shapeMismatch

/-- `export2loom` (`lines 19-147`), with the delegate-computed inputs
(AUC matrix, thresholds, embedding) supplied by the caller: assemble the loom
content, enforce the category-tree depth bound of `line 133`
(`assert len(tree_structure) <= 3`), and write the container. -/
def export2loom (ex_mtx : DataFrame) (regulons : List Regulon)
    (cell_annotations : List (String × String)) (out_fname : String)
    (tree_structure : List String) (title : Option String) (nomenclature : String)
    (tsne_embedding_mtx : List (Rat × Rat)) (auc_mtx : DataFrame)
    (auc_thresholds : List (String × ThresholdVal)) : Except ExportError LoomFile :=
  if tree_structure.length ≤ 3 then
    lpCreate ex_mtx.columns.length ex_mtx.index.length
      (buildLoom ex_mtx regulons cell_annotations out_fname tree_structure title
        nomenclature tsne_embedding_mtx auc_mtx auc_thresholds)
  else .error .treeDepthExceeded

/-! ## The regulon graph exporter (`export_regulons`, `lines 150-167`)

networkx `DiGraph` semantics, shallowly: a graph is an insertion-ordered
association list of nodes and one of edges, each carrying an attribute
dictionary.  `add_node`/`add_edge` on an existing key update its attributes
(`dict.update`: later writes win, existing keys keep their position, new keys
are appended); `add_edge` inserts missing endpoints as bare nodes. -/

/-- A value of a node/edge attribute: a string (context tag datum, group,
interaction label) or a number (edge weight). -/
inductive AttrVal where
  | str (s : String)
  | num (v : Rat)
deriving DecidableEq

/-- A Python-dict-style attribute mapping: insertion-ordered, unique keys. -/
abbrev AttrMap := List (String × AttrVal)

/-- Python `d[k] = v`: overwrite in place when the key exists (keys are
unique, so overwriting the first occurrence is overwriting the occurrence),
else append at the end. -/
def dinsert : AttrMap → String → AttrVal → AttrMap
  | [], k, v => [(k, v)]
  | p :: t, k, v => if p.1 = k then (k, v) :: t else p :: dinsert t k v

/-- Python `d.update(a)`: insert every pair of `a` in order. -/
def dupdate (m : AttrMap) (a : AttrMap) : AttrMap :=
  a.foldl (fun m p => dinsert m p.1 p.2) m

/-- A networkx directed graph: insertion-ordered nodes and edges with
attribute dictionaries. -/
structure DiGraph where
  nodes : List (String × AttrMap)
  edges : List ((String × String) × AttrMap)
deriving DecidableEq

/-- `nx.DiGraph()` -/
def DiGraph.empty : DiGraph := ⟨[], []⟩

/-- `graph.add_node(n, **a)`: update the attributes of an existing node,
else append a fresh node whose attributes are the keyword dict built from
`a`. -/
def addNode (g : DiGraph) (n : String) (a : AttrMap) : DiGraph :=
  if (g.nodes.lookup n).isSome then
    { g with nodes := g.nodes.map fun p => if p.1 = n then (p.1, dupdate p.2 a) else p }
  else
    { g with nodes := g.nodes ++ [(n, dupdate [] a)] }

/-- The implicit node insertion of `add_edge`: a missing endpoint is added
with no attributes, an existing one is left untouched. -/
def ensureNode (g : DiGraph) (n : String) : DiGraph :=
  if (g.nodes.lookup n).isSome then g else { g with nodes := g.nodes ++ [(n, [])] }

/-- `graph.add_edge(u, v, **a)`: insert the endpoints if missing, then update
an existing edge's attributes or append a fresh edge. -/
def addEdge (g : DiGraph) (u v : String) (a : AttrMap) : DiGraph :=
  let g := ensureNode (ensureNode g u) v
  if (g.edges.lookup (u, v)).isSome then
    { g with edges := g.edges.map fun p => if p.1 = (u, v) then (p.1, dupdate p.2 a) else p }
  else
    { g with edges := g.edges ++ [((u, v), dupdate [] a)] }

/-- `'activating' in regulon.context` (`lines 162-163`): membership in the
context's tag set (its keys). -/
def regulonIsActivating (r : Regulon) : Bool :=
  (r.context.map Prod.fst).contains "activating"

/-- `line 162`: the interaction label every edge of this regulon carries. -/
def edgeType (r : Regulon) : String :=
  if regulonIsActivating r then "activating" else "inhibiting"

/-- `line 163`: the group label every target node of this regulon carries. -/
def nodeType (r : Regulon) : String :=
  if regulonIsActivating r then "activated_target" else "inhibited_target"

/-- The `**regulon.context` keyword expansion: each context pair becomes a
string-valued attribute. -/
def ctxAttrs (context : List (String × String)) : AttrMap :=
  context.map fun p => (p.1, .str p.2)

/-- `lines 164-166`, one iteration: add the target node (group plus context)
and the TF→target edge (weight, interaction label, context). -/
def addTarget (r : Regulon) (g : DiGraph) (p : String × Rat) : DiGraph :=
  let g1 := addNode g p.1 (("group", .str (nodeType r)) :: ctxAttrs r.context)
  addEdge g1 r.transcription_factor p.1
    (("weight", .num p.2) :: ("interaction", .str (edgeType r)) :: ctxAttrs r.context)

/-- `lines 159-166`, one regulon: add the TF node, then every target. -/
def addRegulon (g : DiGraph) (r : Regulon) : DiGraph :=
  r.gene2weight.foldl (addTarget r)
    (addNode g r.transcription_factor [("group", .str "transcription_factor")])

/-- `export_regulons` (`lines 150-167`): fold the regulons into a directed
graph (the subsequent `write_graphml` serialization is a faithful dump of
this graph and adds nothing). -/
def export_regulons (regulons : List Regulon) : DiGraph :=
  regulons.foldl addRegulon DiGraph.empty

/-- The node name list of a graph, in insertion order. -/
def nodeNames (g : DiGraph) : List String :=
  g.nodes.map Prod.fst

/-- The edge key list of a graph, in insertion order. -/
def edgeKeys (g : DiGraph) : List (String × String) :=
  g.edges.map Prod.fst

/-- The attribute dictionary of a node. -/
def nodeAttrs (g : DiGraph) (n : String) : Option AttrMap :=
  g.nodes.lookup n

/-- The attribute dictionary of an edge. -/
def edgeAttrs (g : DiGraph) (e : String × String) : Option AttrMap :=
  g.edges.lookup e

/-! ## Association-list and list lemmas -/

theorem lookup_isSome_iff {κ β : Type} [BEq κ] [LawfulBEq κ] (l : List (κ × β)) (k : κ) :
    (l.lookup k).isSome = true ↔ k ∈ l.map Prod.fst := by
  induction l with
  | nil => simp [List.lookup]
  | cons p t ih =>
    obtain ⟨a, b⟩ := p
    by_cases h : k = a
    · subst h; simp [List.lookup]
    · simp [List.lookup, h, beq_false_of_ne h, ih]

theorem lookup_append_left {κ β : Type} [BEq κ] [LawfulBEq κ]
    {l₁ : List (κ × β)} (l₂ : List (κ × β)) {k : κ} {b : β}
    (h : l₁.lookup k = some b) : (l₁ ++ l₂).lookup k = some b := by
  rw [List.lookup_append, h]; rfl

theorem lookup_append_not_mem {κ β : Type} [BEq κ] [LawfulBEq κ]
    {l₁ : List (κ × β)} (l₂ : List (κ × β)) {k : κ}
    (h : l₁.lookup k = none) : (l₁ ++ l₂).lookup k = l₂.lookup k := by
  rw [List.lookup_append, h]; rfl

/-! ## Dictionary-update lemmas -/

theorem dinsert_lookup (m : AttrMap) (k : String) (v : AttrVal) (q : String) :
    (dinsert m k v).lookup q = if q = k then some v else m.lookup q := by
  induction m with
  | nil =>
    by_cases h : q = k
    · subst h; simp [dinsert, List.lookup]
    · simp [dinsert, List.lookup, h, beq_false_of_ne h]
  | cons p t ih =>
    obtain ⟨a, b⟩ := p
    by_cases hak : a = k
    · subst hak
      by_cases hq : q = a
      · subst hq; simp [dinsert, List.lookup]
      · simp [dinsert, List.lookup, hq, beq_false_of_ne hq]
    · by_cases hqa : q = a
      · subst hqa
        have hqk : q ≠ k := hak
        simp [dinsert, List.lookup, hak, hqk]
      · simp [dinsert, List.lookup, hak, beq_false_of_ne hqa, ih]

theorem dupdate_cons (m : AttrMap) (p : String × AttrVal) (a : AttrMap) :
    dupdate m (p :: a) = dupdate (dinsert m p.1 p.2) a := rfl

theorem dupdate_lookup_not_mem (m a : AttrMap) (k : String)
    (h : k ∉ a.map Prod.fst) : (dupdate m a).lookup k = m.lookup k := by
  induction a generalizing m with
  | nil => rfl
  | cons p t ih =>
    simp only [List.map_cons, List.mem_cons, not_or] at h
    rw [dupdate_cons, ih _ h.2, dinsert_lookup]
    simp [h.1]

theorem dupdate_lookup_mem (m a : AttrMap) (k : String) (v : AttrVal)
    (hnd : (a.map Prod.fst).Nodup) (hmem : (k, v) ∈ a) :
    (dupdate m a).lookup k = some v := by
  induction a generalizing m with
  | nil => cases hmem
  | cons p t ih =>
    obtain ⟨pk, pv⟩ := p
    simp only [List.map_cons, List.nodup_cons] at hnd
    rw [dupdate_cons]
    rcases List.mem_cons.mp hmem with heq | htail
    · have hk : k = pk := congrArg Prod.fst heq
      have hv : v = pv := congrArg Prod.snd heq
      subst hk; subst hv
      rw [dupdate_lookup_not_mem _ _ _ hnd.1, dinsert_lookup]
      simp
    · exact ih _ hnd.2 htail

/-! ## Graph-operation lemmas -/

theorem addNode_edges (g : DiGraph) (n : String) (a : AttrMap) :
    (addNode g n a).edges = g.edges := by
  unfold addNode; split <;> rfl

theorem ensureNode_edges (g : DiGraph) (n : String) :
    (ensureNode g n).edges = g.edges := by
  unfold ensureNode; split <;> rfl

theorem addEdge_nodes (g : DiGraph) (u v : String) (a : AttrMap) :
    (addEdge g u v a).nodes = (ensureNode (ensureNode g u) v).nodes := by
  unfold addEdge
  dsimp only
  split <;> rfl

theorem lookup_map_replace {κ β : Type} [BEq κ] [LawfulBEq κ] [DecidableEq κ]
    (l : List (κ × β)) (e : κ) (f : β → β) (q : κ) :
    (l.map fun p => if p.1 = e then (p.1, f p.2) else p).lookup q =
      if q = e then (l.lookup e).map f else l.lookup q := by
  induction l with
  | nil => by_cases h : q = e <;> simp [List.lookup, h]
  | cons p t ih =>
    obtain ⟨a, b⟩ := p
    rw [List.map_cons]
    dsimp only
    by_cases hae : a = e
    · subst hae
      rw [if_pos rfl]
      by_cases hq : q = a
      · subst hq
        simp [List.lookup, ih]
      · simp [List.lookup, beq_false_of_ne hq, hq, ih]
    · rw [if_neg hae]
      by_cases hqa : q = a
      · subst hqa
        have hqe : q ≠ e := hae
        simp [List.lookup, hqe]
      · by_cases hqe : q = e
        · subst hqe
          simp [List.lookup, beq_false_of_ne hqa, ih]
        · simp [List.lookup, beq_false_of_ne hqa, hqe, ih]

theorem keys_map_replace {κ β : Type} [DecidableEq κ]
    (l : List (κ × β)) (e : κ) (f : β → β) :
    (l.map fun p => if p.1 = e then (p.1, f p.2) else p).map Prod.fst = l.map Prod.fst := by
  rw [List.map_map]
  apply List.map_congr_left
  intro p _
  by_cases h : p.1 = e <;> simp [h]

theorem nodeNames_addNode (g : DiGraph) (n : String) (a : AttrMap) :
    nodeNames (addNode g n a) =
      if n ∈ nodeNames g then nodeNames g else nodeNames g ++ [n] := by
  unfold addNode nodeNames
  by_cases h : n ∈ g.nodes.map Prod.fst
  · rw [if_pos ((lookup_isSome_iff _ _).mpr h), if_pos h]
    exact keys_map_replace g.nodes n (fun x => dupdate x a)
  · rw [if_neg (by rw [lookup_isSome_iff]; exact h), if_neg h]
    simp

theorem nodeNames_ensureNode (g : DiGraph) (n : String) :
    nodeNames (ensureNode g n) =
      if n ∈ nodeNames g then nodeNames g else nodeNames g ++ [n] := by
  unfold ensureNode nodeNames
  by_cases h : n ∈ g.nodes.map Prod.fst
  · rw [if_pos ((lookup_isSome_iff _ _).mpr h), if_pos h]
  · rw [if_neg (by rw [lookup_isSome_iff]; exact h), if_neg h]
    simp

theorem mem_nodeNames_addNode (g : DiGraph) (n : String) (a : AttrMap) (s : String) :
    s ∈ nodeNames (addNode g n a) ↔ s = n ∨ s ∈ nodeNames g := by
  rw [nodeNames_addNode]
  split_ifs with h
  · exact ⟨fun hs => Or.inr hs, fun hs => hs.elim (fun he => he ▸ h) id⟩
  · simp [List.mem_append, or_comm]

theorem mem_nodeNames_ensureNode (g : DiGraph) (n : String) (s : String) :
    s ∈ nodeNames (ensureNode g n) ↔ s = n ∨ s ∈ nodeNames g := by
  rw [nodeNames_ensureNode]
  split_ifs with h
  · exact ⟨fun hs => Or.inr hs, fun hs => hs.elim (fun he => he ▸ h) id⟩
  · simp [List.mem_append, or_comm]

theorem mem_nodeNames_addEdge (g : DiGraph) (u v : String) (a : AttrMap) (s : String) :
    s ∈ nodeNames (addEdge g u v a) ↔ s = u ∨ s = v ∨ s ∈ nodeNames g := by
  have h : nodeNames (addEdge g u v a) = nodeNames (ensureNode (ensureNode g u) v) := by
    unfold nodeNames
    rw [addEdge_nodes]
  rw [h, mem_nodeNames_ensureNode, mem_nodeNames_ensureNode]
  tauto

theorem nodup_append_singleton {α : Type} {l : List α} {x : α}
    (h : l.Nodup) (hx : x ∉ l) : (l ++ [x]).Nodup := by
  rw [List.nodup_append]
  exact ⟨h, List.nodup_singleton x, by intro a ha hax; simp at hax; exact hx (hax ▸ ha)⟩

theorem nodup_nodeNames_addNode (g : DiGraph) (n : String) (a : AttrMap)
    (h : (nodeNames g).Nodup) : (nodeNames (addNode g n a)).Nodup := by
  rw [nodeNames_addNode]
  split_ifs with hm
  · exact h
  · exact nodup_append_singleton h hm

theorem nodup_nodeNames_ensureNode (g : DiGraph) (n : String)
    (h : (nodeNames g).Nodup) : (nodeNames (ensureNode g n)).Nodup := by
  rw [nodeNames_ensureNode]
  split_ifs with hm
  · exact h
  · exact nodup_append_singleton h hm

theorem nodup_nodeNames_addEdge (g : DiGraph) (u v : String) (a : AttrMap)
    (h : (nodeNames g).Nodup) : (nodeNames (addEdge g u v a)).Nodup := by
  have heq : nodeNames (addEdge g u v a) = nodeNames (ensureNode (ensureNode g u) v) := by
    unfold nodeNames
    rw [addEdge_nodes]
  rw [heq]
  exact nodup_nodeNames_ensureNode _ _ (nodup_nodeNames_ensureNode _ _ h)

theorem edgeKeys_addEdge (g : DiGraph) (u v : String) (a : AttrMap) :
    edgeKeys (addEdge g u v a) =
      if (u, v) ∈ edgeKeys g then edgeKeys g else edgeKeys g ++ [(u, v)] := by
  unfold addEdge edgeKeys
  dsimp only
  rw [ensureNode_edges, ensureNode_edges]
  by_cases h : (u, v) ∈ g.edges.map Prod.fst
  · rw [if_pos ((lookup_isSome_iff _ _).mpr h), if_pos h]
    exact keys_map_replace g.edges (u, v) (fun x => dupdate x a)
  · rw [if_neg (by rw [lookup_isSome_iff]; exact h), if_neg h]
    simp

theorem mem_edgeKeys_addEdge (g : DiGraph) (u v : String) (a : AttrMap)
    (e : String × String) :
    e ∈ edgeKeys (addEdge g u v a) ↔ e = (u, v) ∨ e ∈ edgeKeys g := by
  rw [edgeKeys_addEdge]
  split_ifs with h
  · exact ⟨fun hs => Or.inr hs, fun hs => hs.elim (fun he => he ▸ h) id⟩
  · simp [List.mem_append, or_comm]

theorem edgeKeys_addNode (g : DiGraph) (n : String) (a : AttrMap) :
    edgeKeys (addNode g n a) = edgeKeys g := by
  unfold edgeKeys
  rw [addNode_edges]

theorem lookup_map_dupdate {κ : Type} [BEq κ] [LawfulBEq κ] [DecidableEq κ]
    (l : List (κ × AttrMap)) (e : κ) (a : AttrMap) (q : κ) :
    (l.map fun p => if p.1 = e then (p.1, dupdate p.2 a) else p).lookup q =
      if q = e then (l.lookup e).map (fun x => dupdate x a) else l.lookup q :=
  lookup_map_replace l e (fun x => dupdate x a) q

/-! ## Attribute-content lemmas for the graph operations -/

theorem nodeAttrs_addNode_self (g : DiGraph) (n : String) (a : AttrMap) :
    ∃ old, nodeAttrs (addNode g n a) n = some (dupdate old a) := by
  unfold addNode nodeAttrs
  by_cases h : (g.nodes.lookup n).isSome
  · rw [if_pos h]
    obtain ⟨old, hold⟩ := Option.isSome_iff_exists.mp h
    refine ⟨old, ?_⟩
    dsimp only
    rw [lookup_map_dupdate, if_pos rfl, hold]
    rfl
  · rw [if_neg h]
    refine ⟨[], ?_⟩
    dsimp only
    rw [lookup_append_not_mem _ (Option.not_isSome_iff_eq_none.mp h)]
    simp [List.lookup]

theorem nodeAttrs_addNode_other (g : DiGraph) (n : String) (a : AttrMap)
    (m : String) (h : m ≠ n) : nodeAttrs (addNode g n a) m = nodeAttrs g m := by
  unfold addNode nodeAttrs
  by_cases hs : (g.nodes.lookup n).isSome
  · rw [if_pos hs]
    dsimp only
    rw [lookup_map_dupdate, if_neg h]
  · rw [if_neg hs]
    dsimp only
    cases hm : g.nodes.lookup m with
    | some am => exact lookup_append_left _ hm
    | none =>
      rw [lookup_append_not_mem _ hm]
      simp [List.lookup, beq_false_of_ne h]

theorem nodeAttrs_ensureNode_some (g : DiGraph) (n m : String) (am : AttrMap)
    (h : nodeAttrs g m = some am) : nodeAttrs (ensureNode g n) m = some am := by
  unfold ensureNode nodeAttrs at *
  by_cases hs : (g.nodes.lookup n).isSome
  · rw [if_pos hs]; exact h
  · rw [if_neg hs]
    exact lookup_append_left _ h

theorem edgeAttrs_addNode (g : DiGraph) (n : String) (a : AttrMap) (e : String × String) :
    edgeAttrs (addNode g n a) e = edgeAttrs g e := by
  unfold edgeAttrs
  rw [addNode_edges]

theorem edgeAttrs_addEdge_self (g : DiGraph) (u v : String) (a : AttrMap) :
    ∃ old, edgeAttrs (addEdge g u v a) (u, v) = some (dupdate old a) := by
  unfold addEdge edgeAttrs
  dsimp only
  rw [ensureNode_edges, ensureNode_edges]
  by_cases h : (g.edges.lookup (u, v)).isSome
  · rw [if_pos h]
    obtain ⟨old, hold⟩ := Option.isSome_iff_exists.mp h
    refine ⟨old, ?_⟩
    dsimp only
    rw [lookup_map_dupdate, if_pos rfl, hold]
    rfl
  · rw [if_neg h]
    refine ⟨[], ?_⟩
    dsimp only
    rw [lookup_append_not_mem _ (Option.not_isSome_iff_eq_none.mp h)]
    simp [List.lookup]

theorem edgeAttrs_addEdge_other (g : DiGraph) (u v : String) (a : AttrMap)
    (e : String × String) (h : e ≠ (u, v)) :
    edgeAttrs (addEdge g u v a) e = edgeAttrs g e := by
  unfold addEdge edgeAttrs
  dsimp only
  rw [ensureNode_edges, ensureNode_edges]
  by_cases hs : (g.edges.lookup (u, v)).isSome
  · rw [if_pos hs]
    dsimp only
    rw [lookup_map_dupdate, if_neg h]
  · rw [if_neg hs]
    dsimp only
    cases hm : g.edges.lookup e with
    | some am => exact lookup_append_left _ hm
    | none =>
      rw [lookup_append_not_mem _ hm]
      simp [List.lookup, beq_false_of_ne h]

theorem nodeAttrs_addEdge_some (g : DiGraph) (u v : String) (a : AttrMap)
    (m : String) (am : AttrMap) (h : nodeAttrs g m = some am) :
    nodeAttrs (addEdge g u v a) m = some am := by
  have hn : (addEdge g u v a).nodes = (ensureNode (ensureNode g u) v).nodes :=
    addEdge_nodes g u v a
  unfold nodeAttrs
  rw [hn]
  exact nodeAttrs_ensureNode_some _ _ _ _ (nodeAttrs_ensureNode_some _ _ _ _ h)

theorem addTarget_edge_node (r : Regulon) (g : DiGraph) (p : String × Rat) :
    (∃ olde, edgeAttrs (addTarget r g p) (r.transcription_factor, p.1) =
      some (dupdate olde
        (("weight", .num p.2) :: ("interaction", .str (edgeType r)) :: ctxAttrs r.context))) ∧
    (∃ oldn, nodeAttrs (addTarget r g p) p.1 =
      some (dupdate oldn (("group", .str (nodeType r)) :: ctxAttrs r.context))) := by
  unfold addTarget
  dsimp only
  constructor
  · exact edgeAttrs_addEdge_self _ _ _ _
  · obtain ⟨oldn, hn⟩ :=
      nodeAttrs_addNode_self g p.1 (("group", .str (nodeType r)) :: ctxAttrs r.context)
    exact ⟨oldn, nodeAttrs_addEdge_some _ _ _ _ _ _ hn⟩

theorem addTarget_preserve_edge (r : Regulon) (g : DiGraph) (p : String × Rat)
    (e : String × String) (he : e ≠ (r.transcription_factor, p.1)) :
    edgeAttrs (addTarget r g p) e = edgeAttrs g e := by
  unfold addTarget
  dsimp only
  rw [edgeAttrs_addEdge_other _ _ _ _ _ he, edgeAttrs_addNode]

theorem addTarget_preserve_node (r : Regulon) (g : DiGraph) (p : String × Rat)
    (m : String) (am : AttrMap) (hm : m ≠ p.1) (h : nodeAttrs g m = some am) :
    nodeAttrs (addTarget r g p) m = some am := by
  unfold addTarget
  dsimp only
  apply nodeAttrs_addEdge_some
  rw [nodeAttrs_addNode_other _ _ _ _ hm]
  exact h

theorem foldl_addTarget_preserve (r : Regulon) (l : List (String × Rat)) (g : DiGraph)
    (tf target : String) (ea na : AttrMap)
    (hl : ∀ p ∈ l, p.1 ≠ target)
    (he : edgeAttrs g (tf, target) = some ea)
    (hn : nodeAttrs g target = some na) :
    edgeAttrs (l.foldl (addTarget r) g) (tf, target) = some ea ∧
    nodeAttrs (l.foldl (addTarget r) g) target = some na := by
  induction l generalizing g with
  | nil => exact ⟨he, hn⟩
  | cons q t ih =>
    rw [List.foldl_cons]
    apply ih
    · intro p hp
      exact hl p (List.mem_cons_of_mem _ hp)
    · rw [addTarget_preserve_edge]
      · exact he
      · intro hcontra
        exact hl q (List.mem_cons_self _ _) (congrArg Prod.snd hcontra).symm
    · exact addTarget_preserve_node _ _ _ _ _
        (Ne.symm (hl q (List.mem_cons_self _ _))) hn

theorem addRegulon_attrs (g : DiGraph) (r : Regulon) (target : String) (w : Rat)
    (htgt : (target, w) ∈ r.gene2weight)
    (hnd : (r.gene2weight.map Prod.fst).Nodup) :
    (∃ olde, edgeAttrs (addRegulon g r) (r.transcription_factor, target) =
      some (dupdate olde
        (("weight", .num w) :: ("interaction", .str (edgeType r)) :: ctxAttrs r.context))) ∧
    (∃ oldn, nodeAttrs (addRegulon g r) target =
      some (dupdate oldn (("group", .str (nodeType r)) :: ctxAttrs r.context))) := by
  obtain ⟨l₁, l₂, hsplit⟩ := List.append_of_mem htgt
  have htno : target ∉ l₂.map Prod.fst := by
    rw [hsplit, List.map_append] at hnd
    have h2 := (List.nodup_append.mp hnd).2.1
    rw [List.map_cons] at h2
    exact (List.nodup_cons.mp h2).1
  have hnotin : ∀ p ∈ l₂, p.1 ≠ target := by
    intro p hp hpt
    exact htno (hpt ▸ List.mem_map_of_mem Prod.fst hp)
  unfold addRegulon
  rw [hsplit, List.foldl_append, List.foldl_cons]
  obtain ⟨⟨olde, he⟩, ⟨oldn, hn⟩⟩ := addTarget_edge_node r
    (l₁.foldl (addTarget r)
      (addNode g r.transcription_factor [("group", .str "transcription_factor")]))
    (target, w)
  have hpres := foldl_addTarget_preserve r l₂ _ r.transcription_factor target _ _
    hnotin he hn
  exact ⟨⟨olde, hpres.1⟩, ⟨oldn, hpres.2⟩⟩

/-! ## Node/edge membership through the regulon fold -/

theorem mem_nodeNames_addTarget (r : Regulon) (g : DiGraph) (p : String × Rat) (s : String) :
    s ∈ nodeNames (addTarget r g p) ↔
      s = p.1 ∨ s = r.transcription_factor ∨ s ∈ nodeNames g := by
  unfold addTarget
  dsimp only
  rw [mem_nodeNames_addEdge, mem_nodeNames_addNode]
  tauto

theorem nodup_nodeNames_addTarget (r : Regulon) (g : DiGraph) (p : String × Rat)
    (h : (nodeNames g).Nodup) : (nodeNames (addTarget r g p)).Nodup := by
  unfold addTarget
  dsimp only
  exact nodup_nodeNames_addEdge _ _ _ _ (nodup_nodeNames_addNode _ _ _ h)

theorem mem_nodeNames_foldl_addTarget (r : Regulon) (l : List (String × Rat))
    (g : DiGraph) (s : String) :
    s ∈ nodeNames (l.foldl (addTarget r) g) ↔
      (∃ p ∈ l, s = p.1 ∨ s = r.transcription_factor) ∨ s ∈ nodeNames g := by
  induction l generalizing g with
  | nil => simp
  | cons q t ih =>
    rw [List.foldl_cons, ih, mem_nodeNames_addTarget]
    simp only [List.mem_cons, exists_eq_or_imp]
    aesop

theorem nodup_nodeNames_foldl_addTarget (r : Regulon) (l : List (String × Rat))
    (g : DiGraph) (h : (nodeNames g).Nodup) :
    (nodeNames (l.foldl (addTarget r) g)).Nodup := by
  induction l generalizing g with
  | nil => exact h
  | cons q t ih =>
    rw [List.foldl_cons]
    exact ih _ (nodup_nodeNames_addTarget _ _ _ h)

theorem mem_nodeNames_addRegulon (g : DiGraph) (r : Regulon) (s : String) :
    s ∈ nodeNames (addRegulon g r) ↔
      s = r.transcription_factor ∨ s ∈ r.genes ∨ s ∈ nodeNames g := by
  unfold addRegulon
  rw [mem_nodeNames_foldl_addTarget, mem_nodeNames_addNode]
  constructor
  · rintro (⟨p, hp, hs | hs⟩ | hs | hs)
    · exact Or.inr (Or.inl (hs ▸ List.mem_map_of_mem Prod.fst hp))
    · exact Or.inl hs
    · exact Or.inl hs
    · exact Or.inr (Or.inr hs)
  · rintro (hs | hs | hs)
    · exact Or.inr (Or.inl hs)
    · obtain ⟨p, hp, hps⟩ := List.mem_map.mp hs
      exact Or.inl ⟨p, hp, Or.inl hps.symm⟩
    · exact Or.inr (Or.inr hs)

theorem nodup_nodeNames_addRegulon (g : DiGraph) (r : Regulon)
    (h : (nodeNames g).Nodup) : (nodeNames (addRegulon g r)).Nodup := by
  unfold addRegulon
  exact nodup_nodeNames_foldl_addTarget _ _ _ (nodup_nodeNames_addNode _ _ _ h)

theorem mem_nodeNames_export_fold (rs : List Regulon) (g : DiGraph) (s : String) :
    s ∈ nodeNames (rs.foldl addRegulon g) ↔
      (∃ r ∈ rs, s = r.transcription_factor ∨ s ∈ r.genes) ∨ s ∈ nodeNames g := by
  induction rs generalizing g with
  | nil => simp
  | cons r t ih =>
    rw [List.foldl_cons, ih, mem_nodeNames_addRegulon]
    simp only [List.mem_cons, exists_eq_or_imp]
    aesop

theorem nodup_nodeNames_export_fold (rs : List Regulon) (g : DiGraph)
    (h : (nodeNames g).Nodup) : (nodeNames (rs.foldl addRegulon g)).Nodup := by
  induction rs generalizing g with
  | nil => exact h
  | cons r t ih =>
    rw [List.foldl_cons]
    exact ih _ (nodup_nodeNames_addRegulon _ _ h)

theorem mem_edgeKeys_addTarget (r : Regulon) (g : DiGraph) (p : String × Rat)
    (e : String × String) :
    e ∈ edgeKeys (addTarget r g p) ↔
      e = (r.transcription_factor, p.1) ∨ e ∈ edgeKeys g := by
  unfold addTarget
  dsimp only
  rw [mem_edgeKeys_addEdge, edgeKeys_addNode]

theorem mem_edgeKeys_foldl_addTarget (r : Regulon) (l : List (String × Rat))
    (g : DiGraph) (e : String × String) :
    e ∈ edgeKeys (l.foldl (addTarget r) g) ↔
      (∃ p ∈ l, e = (r.transcription_factor, p.1)) ∨ e ∈ edgeKeys g := by
  induction l generalizing g with
  | nil => simp
  | cons q t ih =>
    rw [List.foldl_cons, ih, mem_edgeKeys_addTarget]
    simp only [List.mem_cons, exists_eq_or_imp]
    aesop

theorem mem_edgeKeys_addRegulon (g : DiGraph) (r : Regulon) (e : String × String) :
    e ∈ edgeKeys (addRegulon g r) ↔
      (∃ p ∈ r.gene2weight, e = (r.transcription_factor, p.1)) ∨ e ∈ edgeKeys g := by
  unfold addRegulon
  rw [mem_edgeKeys_foldl_addTarget, edgeKeys_addNode]

theorem mem_edgeKeys_export_fold (rs : List Regulon) (g : DiGraph) (e : String × String) :
    e ∈ edgeKeys (rs.foldl addRegulon g) ↔
      (∃ r ∈ rs, ∃ p ∈ r.gene2weight, e = (r.transcription_factor, p.1)) ∨
        e ∈ edgeKeys g := by
  induction rs generalizing g with
  | nil => simp
  | cons r t ih =>
    rw [List.foldl_cons, ih, mem_edgeKeys_addRegulon]
    simp only [List.mem_cons, exists_eq_or_imp]
    aesop

/-! ## Elimination of a successful export -/

theorem export2loom_ok_elim
    {ex_mtx : DataFrame} {regulons : List Regulon}
    {cell_annotations : List (String × String)} {out_fname : String}
    {tree_structure : List String} {title : Option String} {nomenclature : String}
    {tsne_embedding_mtx : List (Rat × Rat)} {auc_mtx : DataFrame}
    {auc_thresholds : List (String × ThresholdVal)} {loom : LoomFile}
    (h : export2loom ex_mtx regulons cell_annotations out_fname tree_structure
      title nomenclature tsne_embedding_mtx auc_mtx auc_thresholds = .ok loom) :
    loom = buildLoom ex_mtx regulons cell_annotations out_fname tree_structure
      title nomenclature tsne_embedding_mtx auc_mtx auc_thresholds ∧
    tree_structure.length ≤ 3 := by
  unfold export2loom lpCreate at h
  split at h
  · split at h
    · cases h; exact ⟨rfl, by assumption⟩
    · cases h
  · cases h

/-! ## Category-tree padding lemmas -/

theorem mkScopeTreeAttrs_eq (t : List String) :
    ∃ a b c, (t ++ List.replicate 3 "").take 3 = [a, b, c] ∧
      mkScopeTreeAttrs t = [("SCopeTreeL1", a), ("SCopeTreeL2", b), ("SCopeTreeL3", c)] := by
  have hlen : ((t ++ List.replicate 3 "").take 3).length = 3 := by
    simp [List.length_take]
  obtain ⟨a, b, c, h⟩ := List.length_eq_three.mp hlen
  refine ⟨a, b, c, h, ?_⟩
  unfold mkScopeTreeAttrs
  rw [h]
  simp [List.enum, List.enumFrom]
  exact ⟨by decide, by decide, by decide⟩

theorem pad3_of_le (t : List String) (h : t.length ≤ 3) :
    (t ++ List.replicate 3 "").take 3 = t ++ List.replicate (3 - t.length) "" := by
  rw [List.take_append_eq_append_take, List.take_of_length_le h, List.take_replicate]
  have hmin : (3 - t.length) ⊓ 3 = 3 - t.length := by omega
  rw [hmin]

/-! ## Transpose lemmas -/

theorem transposeMtx_length (rows : List (List Rat)) (ncols : Nat) :
    (transposeMtx rows ncols).length = ncols := by
  simp [transposeMtx]

theorem transposeMtx_row_length (rows : List (List Rat)) (ncols : Nat) :
    ∀ row ∈ transposeMtx rows ncols, row.length = rows.length := by
  intro row hrow
  simp only [transposeMtx, List.mem_map] at hrow
  obtain ⟨j, _, rfl⟩ := hrow
  simp

theorem transposeMtx_entry (rows : List (List Rat)) (ncols : Nat) (i j : Nat)
    (hi : i < ncols) (hj : j < rows.length) :
    ((transposeMtx rows ncols).getD i []).getD j 0 = (rows.getD j []).getD i 0 := by
  have h1 : (transposeMtx rows ncols).getD i [] = rows.map fun row => row.getD i 0 := by
    rw [transposeMtx, List.getD_eq_getElem?_getD, List.getElem?_map]
    rw [List.getElem?_eq_getElem (by simpa using hi)]
    simp
  rw [h1, List.getD_eq_getElem?_getD, List.getElem?_map,
    List.getElem?_eq_getElem hj]
  rw [List.getD_eq_getElem?_getD rows j, List.getElem?_eq_getElem hj]
  rfl

/-! ## Cluster-mapping lemmas -/

theorem sortedAnnotationValues_sorted_le (cell_annotations : List (String × String)) :
    List.Sorted (· ≤ ·) (sortedAnnotationValues cell_annotations) := by
  have h := @List.sorted_mergeSort String (fun a b : String => decide (a ≤ b))
    (fun a b c hab hbc => by
      simp only [decide_eq_true_eq] at hab hbc ⊢
      exact le_trans hab hbc)
    (fun a b => by
      rcases le_total a b with h | h <;> simp [h])
    ((cell_annotations.map Prod.snd).dedup)
  exact h.imp (by simp only [decide_eq_true_eq]; exact id)

theorem sortedAnnotationValues_nodup (cell_annotations : List (String × String)) :
    (sortedAnnotationValues cell_annotations).Nodup := by
  have hperm := List.mergeSort_perm ((cell_annotations.map Prod.snd).dedup)
    (fun a b : String => decide (a ≤ b))
  exact hperm.nodup_iff.mpr (List.nodup_dedup _)

theorem sortedAnnotationValues_sorted (cell_annotations : List (String × String)) :
    List.Sorted (· < ·) (sortedAnnotationValues cell_annotations) :=
  (sortedAnnotationValues_sorted_le cell_annotations).lt_of_le
    (sortedAnnotationValues_nodup cell_annotations)

theorem mem_sortedAnnotationValues (cell_annotations : List (String × String)) (s : String) :
    s ∈ sortedAnnotationValues cell_annotations ↔ s ∈ cell_annotations.map Prod.snd := by
  unfold sortedAnnotationValues
  rw [(List.mergeSort_perm _ _).mem_iff, List.mem_dedup]

theorem name2idx_keys (cell_annotations : List (String × String)) :
    (name2idx cell_annotations).map Prod.fst = sortedAnnotationValues cell_annotations := by
  unfold name2idx
  rw [List.map_map]
  exact List.enum_map_snd _

theorem name2idx_indices (cell_annotations : List (String × String)) :
    (name2idx cell_annotations).map Prod.snd = List.range (name2idx cell_annotations).length := by
  unfold name2idx
  rw [List.map_map, List.length_map, List.enum_length]
  have hc : (Prod.snd ∘ fun p : Nat × String => (p.2, p.1)) = Prod.fst := rfl
  rw [hc, List.enum_map_fst]



/-! ## Concrete sample inputs used by the witnesses -/

/-- A 2-cell × 2-gene expression matrix. -/
def sampleEx : DataFrame := ⟨["c1", "c2"], ["g1", "g2"], [[1, 0], [0, 3]]⟩

/-- Complete annotations (values deliberately out of sorted order). -/
def sampleAnn : List (String × String) := [("c1", "B"), ("c2", "A")]

/-- An AUC matrix over the two cells (no regulon columns). -/
def sampleAuc : DataFrame := ⟨["c1", "c2"], [], [[], []]⟩

/-- A 2-point embedding. -/
def sampleTsne : List (Rat × Rat) := [(0, 0), (1, 1)]

/-- A well-shaped assembled loom content. -/
def sampleLoomGood : LoomFile :=
  buildLoom sampleEx [] sampleAnn "s.loom" [] none "Unknown" sampleTsne sampleAuc []

/-- A mis-shaped assembled loom content: the embedding has one row for two
cells. -/
def sampleLoomBad : LoomFile :=
  buildLoom sampleEx [] sampleAnn "s.loom" [] none "Unknown" [(0, 0)] sampleAuc []

/-! ## The claims -/

/-- C1: for every expression matrix, the primary matrix written into the
container is the transpose of the in-memory cell-row/gene-column matrix:
genes are the outer (row) axis — the written matrix has one row per gene —
cells are the inner (column) axis — each written row has one entry per cell —
and entry `(i, j)` of the written matrix equals entry `(j, i)` of the
in-memory matrix, values unchanged. -/
theorem primary_matrix_transposed
    (ex_mtx : DataFrame) (regulons : List Regulon)
    (cell_annotations : List (String × String)) (out_fname : String)
    (tree_structure : List String) (title : Option String) (nomenclature : String)
    (tsne_embedding_mtx : List (Rat × Rat)) (auc_mtx : DataFrame)
    (auc_thresholds : List (String × ThresholdVal)) (loom : LoomFile)
    (hexp : export2loom ex_mtx regulons cell_annotations out_fname tree_structure
      title nomenclature tsne_embedding_mtx auc_mtx auc_thresholds = .ok loom)
    (i j : Nat) (hi : i < ex_mtx.columns.length) (hj : j < ex_mtx.values.length) :
    loom.matrix.length = ex_mtx.columns.length ∧
    (∀ row ∈ loom.matrix, row.length = ex_mtx.values.length) ∧
    (loom.matrix.getD i []).getD j 0 = (ex_mtx.values.getD j []).getD i 0 := by
  obtain ⟨hloom, -⟩ := export2loom_ok_elim hexp
  subst hloom
  have hmx : (buildLoom ex_mtx regulons cell_annotations out_fname tree_structure
      title nomenclature tsne_embedding_mtx auc_mtx auc_thresholds).matrix =
      transposeMtx ex_mtx.values ex_mtx.columns.length := rfl
  rw [hmx]
  exact ⟨transposeMtx_length _ _, transposeMtx_row_length _ _,
    transposeMtx_entry _ _ _ _ hi hj⟩

/-- Witness for C1 at a concrete 2×2 matrix: the written entry (gene 2, cell 1)
is the in-memory entry (cell 1, gene 2). -/
theorem primary_matrix_transposed_witness :
    ((buildLoom sampleEx [] sampleAnn "s.loom" [] none "Unknown" sampleTsne
        sampleAuc []).matrix.getD 1 []).getD 0 0 =
      (sampleEx.values.getD 0 []).getD 1 0 :=
  (primary_matrix_transposed sampleEx [] sampleAnn "s.loom" [] none "Unknown"
    sampleTsne sampleAuc [] _ rfl 1 0 (by decide) (by decide)).2.2

/-- C3: threshold resolution — a scalar threshold resolves to itself and a
tuple `(v, rest)` resolves to its first element `v`, both directly and through
the per-regulon threshold-record constructor of the metadata. -/
theorem threshold_resolution (regulons : List Regulon) (name : String)
    (v : Rat) (rest : List Rat) :
    defaultThresholdValue (.scalar v) = v ∧
    defaultThresholdValue (.tup v rest) = v ∧
    (mkRegulonThreshold regulons (name, .scalar v)).defaultThresholdValue = v ∧
    (mkRegulonThreshold regulons (name, .tup v rest)).defaultThresholdValue = v :=
  ⟨rfl, rfl, rfl, rfl⟩

/-- C4: a category tree of length 0..3 yields exactly the three file
attributes `SCopeTreeL1..L3`, carrying the tree entries in order with the
missing levels as `""`; a tree of length > 3 fails with the tree-depth error
and the operation emits nothing at all. -/
theorem tree_padding
    (ex_mtx : DataFrame) (regulons : List Regulon)
    (cell_annotations : List (String × String)) (out_fname : String)
    (tree_structure : List String) (title : Option String) (nomenclature : String)
    (tsne_embedding_mtx : List (Rat × Rat)) (auc_mtx : DataFrame)
    (auc_thresholds : List (String × ThresholdVal)) (loom : LoomFile) :
    (export2loom ex_mtx regulons cell_annotations out_fname tree_structure
        title nomenclature tsne_embedding_mtx auc_mtx auc_thresholds = .ok loom →
      loom.scopeTreeAttrs.length = 3 ∧
      loom.scopeTreeAttrs.map Prod.fst =
        ["SCopeTreeL1", "SCopeTreeL2", "SCopeTreeL3"] ∧
      loom.scopeTreeAttrs.map Prod.snd =
        tree_structure ++ List.replicate (3 - tree_structure.length) "") ∧
    (3 < tree_structure.length →
      export2loom ex_mtx regulons cell_annotations out_fname tree_structure
        title nomenclature tsne_embedding_mtx auc_mtx auc_thresholds =
          .error .treeDepthExceeded) := by
  constructor
  · intro hexp
    obtain ⟨hloom, hlen⟩ := export2loom_ok_elim hexp
    subst hloom
    obtain ⟨a, b, c, hpad, heq⟩ := mkScopeTreeAttrs_eq tree_structure
    have hst : (buildLoom ex_mtx regulons cell_annotations out_fname tree_structure
        title nomenclature tsne_embedding_mtx auc_mtx auc_thresholds).scopeTreeAttrs =
        mkScopeTreeAttrs tree_structure := rfl
    rw [hst, heq]
    refine ⟨rfl, rfl, ?_⟩
    have habc : [a, b, c] =
        tree_structure ++ List.replicate (3 - tree_structure.length) "" := by
      rw [← hpad]
      exact pad3_of_le _ hlen
    simpa using habc
  · intro hgt
    unfold export2loom
    rw [if_neg (by omega)]

/-- Witness for C4: a length-1 tree pads to `["Brain", "", ""]`, and a
length-4 tree makes the export fail with the tree-depth error. -/
theorem tree_padding_witness :
    ((buildLoom sampleEx [] sampleAnn "s.loom" ["Brain"] none "Unknown" sampleTsne
        sampleAuc []).scopeTreeAttrs.length = 3 ∧
      (buildLoom sampleEx [] sampleAnn "s.loom" ["Brain"] none "Unknown" sampleTsne
        sampleAuc []).scopeTreeAttrs.map Prod.fst =
          ["SCopeTreeL1", "SCopeTreeL2", "SCopeTreeL3"] ∧
      (buildLoom sampleEx [] sampleAnn "s.loom" ["Brain"] none "Unknown" sampleTsne
        sampleAuc []).scopeTreeAttrs.map Prod.snd =
          ["Brain"] ++ List.replicate (3 - (["Brain"] : List String).length) "") ∧
    export2loom sampleEx [] sampleAnn "s.loom" ["a", "b", "c", "d"] none "Unknown"
        sampleTsne sampleAuc [] = .error .treeDepthExceeded :=
  ⟨(tree_padding sampleEx [] sampleAnn "s.loom" ["Brain"] none "Unknown" sampleTsne
      sampleAuc [] _).1 rfl,
   (tree_padding sampleEx [] sampleAnn "s.loom" ["a", "b", "c", "d"] none "Unknown"
      sampleTsne sampleAuc [] sampleLoomGood).2 (by decide)⟩

/-- C5 (the container writer is modelled from the spec, see `lpCreate`):
a row/column-count disagreement between the primary matrix and an attribute
table makes the writer fail with the shape-mismatch error and produce no file
content at all — the `Except` result is either an error carrying nothing or
the complete file — while agreeing shapes produce the fully written file. -/
theorem shape_mismatch_atomic (nrows ncols : Nat) (f : LoomFile) :
    (shapesOk nrows ncols f = false →
      lpCreate nrows ncols f = .error .shapeMismatch ∧
        ∀ out, lpCreate nrows ncols f ≠ .ok out) ∧
    (shapesOk nrows ncols f = true → lpCreate nrows ncols f = .ok f) := by
  unfold lpCreate
  constructor
  · intro h
    rw [if_neg (by simp [h])]
    exact ⟨rfl, fun out hc => Except.noConfusion hc⟩
  · intro h
    rw [if_pos h]

/-- Witness for C5: a loom content whose embedding table has one row for two
cells is rejected with the shape-mismatch error, and the well-shaped variant
is written in full. -/
theorem shape_mismatch_atomic_witness :
    lpCreate 2 2 sampleLoomBad = .error .shapeMismatch ∧
    lpCreate 2 2 sampleLoomGood = .ok sampleLoomGood :=
  ⟨((shape_mismatch_atomic 2 2 sampleLoomBad).1 (by decide)).1,
   (shape_mismatch_atomic 2 2 sampleLoomGood).2 (by decide)⟩

/-- C7: the regulon gene-membership indicator matrix has shape
(number of genes × number of regulons), entry `(i, j)` is 1 exactly when gene
`i` is in regulon `j`'s target set and 0 otherwise, and an empty regulon
collection yields the valid zero-width matrix (one empty row per gene) rather
than an error. -/
theorem regulon_indicator (genes : List String) (regulons : List Regulon)
    (i j : Nat) (hi : i < genes.length) (hj : j < regulons.length) :
    (regulonAssignment genes regulons).length = genes.length ∧
    (∀ row ∈ regulonAssignment genes regulons, row.length = regulons.length) ∧
    ((regulonAssignment genes regulons).getD i []).getD j 0 =
      (if genes.getD i "" ∈ (regulons.getD j ⟨"", "", [], []⟩).genes then 1 else 0) ∧
    regulonAssignment genes [] = List.replicate genes.length [] := by
  refine ⟨by simp [regulonAssignment], ?_, ?_, by simp [regulonAssignment, List.map_const']⟩
  · intro row hrow
    simp only [regulonAssignment, List.mem_map] at hrow
    obtain ⟨g, _, rfl⟩ := hrow
    simp
  · have hg : genes.getD i "" = genes[i] := by
      rw [List.getD_eq_getElem?_getD, List.getElem?_eq_getElem hi]
      rfl
    have hr : regulons.getD j ⟨"", "", [], []⟩ = regulons[j] := by
      rw [List.getD_eq_getElem?_getD, List.getElem?_eq_getElem hj]
      rfl
    have hrow : (regulonAssignment genes regulons).getD i [] =
        List.map (fun r => if genes[i] ∈ r.genes then 1 else 0) regulons := by
      rw [regulonAssignment, List.getD_eq_getElem?_getD _ i, List.getElem?_map,
        List.getElem?_eq_getElem hi]
      rfl
    rw [hrow, List.getD_eq_getElem?_getD _ j, List.getElem?_map,
      List.getElem?_eq_getElem hj]
    simp only [Option.map_some', Option.getD_some]
    rw [hg, hr]

/-- Witness for C7 at the spec scenario: over genes `[g1, g2, g3]` the
indicator column of `TF1 → {g1, g2}` is `[1, 1, 0]`, i.e. entry (0, 0) is 1. -/
theorem regulon_indicator_witness :
    ((regulonAssignment ["g1", "g2", "g3"]
        [⟨"Regulon for TF1", "TF1", [("g1", 9/10), ("g2", 2/5)], []⟩]).getD 0 []).getD 0 0 =
      (if ("g1" : String) ∈ (Regulon.genes ⟨"Regulon for TF1", "TF1",
        [("g1", 9/10), ("g2", 2/5)], []⟩) then 1 else 0) :=
  (regulon_indicator ["g1", "g2", "g3"]
    [⟨"Regulon for TF1", "TF1", [("g1", 9/10), ("g2", 2/5)], []⟩]
    0 0 (by decide) (by decide)).2.2.1


/-- C2: the cluster name→index mapping is the enumeration of the distinct
annotation values in strictly ascending string order with consecutive indices
starting at 0 (determinism of re-running is definitional here: `name2idx` is a
pure function of its input), and the cluster descriptors of the emitted
metadata enumerate exactly this mapping. -/
theorem cluster_index_mapping
    (ex_mtx : DataFrame) (regulons : List Regulon)
    (cell_annotations : List (String × String)) (out_fname : String)
    (tree_structure : List String) (title : Option String) (nomenclature : String)
    (tsne_embedding_mtx : List (Rat × Rat)) (auc_mtx : DataFrame)
    (auc_thresholds : List (String × ThresholdVal)) (loom : LoomFile)
    (hexp : export2loom ex_mtx regulons cell_annotations out_fname tree_structure
      title nomenclature tsne_embedding_mtx auc_mtx auc_thresholds = .ok loom) :
    List.Sorted (· < ·) ((name2idx cell_annotations).map Prod.fst) ∧
    (∀ s, s ∈ (name2idx cell_annotations).map Prod.fst ↔
      s ∈ cell_annotations.map Prod.snd) ∧
    (name2idx cell_annotations).map Prod.snd =
      List.range (name2idx cell_annotations).length ∧
    loom.metadata.clusterings = [⟨0, "celltype", "Cell Type",
      (name2idx cell_annotations).map fun p => ⟨p.2, p.1⟩⟩] := by
  obtain ⟨hloom, -⟩ := export2loom_ok_elim hexp
  subst hloom
  refine ⟨?_, ?_, name2idx_indices _, rfl⟩
  · rw [name2idx_keys]
    exact sortedAnnotationValues_sorted _
  · intro s
    rw [name2idx_keys]
    exact mem_sortedAnnotationValues _ s

/-- Witness for C2 at concrete annotations `{c1 ↦ B, c2 ↦ A}`: the mapping is
`{A ↦ 0, B ↦ 1}`, sorted, with range indices, mirrored in the metadata. -/
theorem cluster_index_mapping_witness :
    List.Sorted (· < ·) ((name2idx sampleAnn).map Prod.fst) ∧
    (∀ s, s ∈ (name2idx sampleAnn).map Prod.fst ↔
      s ∈ sampleAnn.map Prod.snd) ∧
    (name2idx sampleAnn).map Prod.snd = List.range (name2idx sampleAnn).length ∧
    sampleLoomGood.metadata.clusterings = [⟨0, "celltype", "Cell Type",
      (name2idx sampleAnn).map fun p => ⟨p.2, p.1⟩⟩] :=
  cluster_index_mapping sampleEx [] sampleAnn "s.loom" [] none "Unknown"
    sampleTsne sampleAuc [] sampleLoomGood rfl

/-- Annotations leaving cell `c2` of `sampleEx` unannotated. -/
def annMissing : List (String × String) := [("c1", "A")]

/-- C6 counterexample: cell `c2` of the expression matrix has no entry in the
annotation mapping, yet `export2loom` succeeds and returns the written file —
there is no completeness check anywhere in the export path, so no
`IncompleteAnnotationError` (or any error) is raised. -/
theorem missing_annotation_not_an_error :
    "c2" ∈ sampleEx.index ∧
    annMissing.lookup "c2" = none ∧
    export2loom sampleEx [] annMissing "s.loom" [] none "Unknown" sampleTsne
        sampleAuc [] =
      .ok (buildLoom sampleEx [] annMissing "s.loom" [] none "Unknown" sampleTsne
        sampleAuc []) :=
  ⟨by decide, rfl, rfl⟩

/-- C6 (amended): a cell ID with no entry in the annotation mapping does not
make the export fail; the container is written anyway, and — when the raw ID
also matches no annotation value — that cell's cluster entry is the raw cell
ID left behind by the two `.replace` passes (a string, not a cluster index). -/
theorem missing_annotation_passthrough
    (ex_mtx : DataFrame) (regulons : List Regulon)
    (cell_annotations : List (String × String)) (out_fname : String)
    (tree_structure : List String) (title : Option String) (nomenclature : String)
    (tsne_embedding_mtx : List (Rat × Rat)) (auc_mtx : DataFrame)
    (auc_thresholds : List (String × ThresholdVal)) (loom : LoomFile)
    (hexp : export2loom ex_mtx regulons cell_annotations out_fname tree_structure
      title nomenclature tsne_embedding_mtx auc_mtx auc_thresholds = .ok loom)
    (i : Nat) (c : String) (hi : i < ex_mtx.index.length)
    (hc : ex_mtx.index.getD i "" = c)
    (hmiss : cell_annotations.lookup c = none)
    (hval : (name2idx cell_annotations).lookup c = none) :
    loom.clusterID.getD i (.str "") = .str c := by
  obtain ⟨hloom, -⟩ := export2loom_ok_elim hexp
  subst hloom
  have h1 : (buildLoom ex_mtx regulons cell_annotations out_fname tree_structure
      title nomenclature tsne_embedding_mtx auc_mtx auc_thresholds).clusterID =
      ex_mtx.index.map (clusterValue cell_annotations (name2idx cell_annotations)) := rfl
  have h2 : ex_mtx.index[i] = c := by
    rw [← hc, List.getD_eq_getElem?_getD, List.getElem?_eq_getElem hi]
    rfl
  rw [h1, List.getD_eq_getElem?_getD _ i, List.getElem?_map,
    List.getElem?_eq_getElem hi]
  simp only [Option.map_some', Option.getD_some]
  rw [h2]
  unfold clusterValue
  rw [hmiss]
  simp only [Option.getD_none]
  rw [hval]

/-- Witness for the amended C6: with `{c1 ↦ A}` and cells `[c1, c2]`, the
export succeeds and cell `c2`'s cluster entry is the string `"c2"`. -/
theorem missing_annotation_passthrough_witness :
    (buildLoom sampleEx [] annMissing "s.loom" [] none "Unknown" sampleTsne
        sampleAuc []).clusterID.getD 1 (.str "") = .str "c2" := by
  have hs : sortedAnnotationValues annMissing = ["A"] := by
    simp [sortedAnnotationValues, annMissing]
  have hn2i : name2idx annMissing = [("A", 0)] := by
    unfold name2idx
    rw [hs]
    rfl
  exact missing_annotation_passthrough sampleEx [] annMissing "s.loom" [] none
    "Unknown" sampleTsne sampleAuc [] _ rfl 1 "c2" (by decide) rfl rfl
    (by rw [hn2i]; rfl)

/-- C10: every per-regulon threshold record of the emitted metadata carries
the fixed default-threshold name `"guassian_mixture_split"` (the misspelling
is the source's), its `allThresholds` table holds exactly that one key, and
the value stored under it is the record's `defaultThresholdValue`. -/
theorem threshold_record_fixed_name
    (ex_mtx : DataFrame) (regulons : List Regulon)
    (cell_annotations : List (String × String)) (out_fname : String)
    (tree_structure : List String) (title : Option String) (nomenclature : String)
    (tsne_embedding_mtx : List (Rat × Rat)) (auc_mtx : DataFrame)
    (auc_thresholds : List (String × ThresholdVal)) (loom : LoomFile)
    (hexp : export2loom ex_mtx regulons cell_annotations out_fname tree_structure
      title nomenclature tsne_embedding_mtx auc_mtx auc_thresholds = .ok loom)
    (tr : RegulonThreshold) (htr : tr ∈ loom.metadata.regulonThresholds) :
    tr.defaultThresholdName = "guassian_mixture_split" ∧
    tr.allThresholds = [("guassian_mixture_split", tr.defaultThresholdValue)] := by
  obtain ⟨hloom, -⟩ := export2loom_ok_elim hexp
  subst hloom
  have h1 : (buildLoom ex_mtx regulons cell_annotations out_fname tree_structure
      title nomenclature tsne_embedding_mtx auc_mtx auc_thresholds).metadata.regulonThresholds =
      regulonThresholds regulons auc_thresholds := rfl
  rw [h1] at htr
  obtain ⟨p, _, rfl⟩ := List.mem_map.mp htr
  exact ⟨rfl, rfl⟩

/-- Witness for C10 at a concrete threshold list with one scalar entry. -/
theorem threshold_record_fixed_name_witness :
    (mkRegulonThreshold [] ("Regulon for TF1", .scalar (17/100))).defaultThresholdName =
        "guassian_mixture_split" ∧
    (mkRegulonThreshold [] ("Regulon for TF1", .scalar (17/100))).allThresholds =
      [("guassian_mixture_split",
        (mkRegulonThreshold [] ("Regulon for TF1", .scalar (17/100))).defaultThresholdValue)] :=
  threshold_record_fixed_name sampleEx [] sampleAnn "s.loom" [] none "Unknown"
    sampleTsne sampleAuc [("Regulon for TF1", .scalar (17/100))]
    (buildLoom sampleEx [] sampleAnn "s.loom" [] none "Unknown" sampleTsne sampleAuc
      [("Regulon for TF1", .scalar (17/100))])
    rfl _ (List.mem_cons_self _ _)


/-- The keys of the keyword expansion of a context are the context's tags. -/
theorem ctxAttrs_keys (c : List (String × String)) :
    (ctxAttrs c).map Prod.fst = c.map Prod.fst := by
  rw [ctxAttrs, List.map_map]
  rfl

/-- The activating flag is membership of `"activating"` in the tag set. -/
theorem regulonIsActivating_iff (r : Regulon) :
    regulonIsActivating r = true ↔ "activating" ∈ r.context.map Prod.fst := by
  simp [regulonIsActivating, List.contains, List.elem_iff]

/-- A regulon with two target genes, an `activating` tag and a logo tag. -/
def sampleReg1 : Regulon :=
  ⟨"Regulon for TF1", "TF1", [("g1", 1), ("g2", 1/2)],
    [("activating", ""), ("TF1.png", "")]⟩

/-- A second regulon sharing target `g1`, without an `activating` tag. -/
def sampleReg2 : Regulon := ⟨"Regulon for TF2", "TF2", [("g1", 2)], []⟩

/-- C8: the exported regulon graph deduplicates nodes by name — the node-name
list has no duplicates, a name is a node exactly when it is some regulon's
transcription factor or one of its targets, and every (TF, target) pair of
every regulon is present as a directed edge.  In particular two regulons
targeting the same gene produce one node for that gene with an edge from each
of the two TFs. -/
theorem graph_dedup (regulons : List Regulon) :
    (nodeNames (export_regulons regulons)).Nodup ∧
    (∀ s, s ∈ nodeNames (export_regulons regulons) ↔
      ∃ r ∈ regulons, s = r.transcription_factor ∨ s ∈ r.genes) ∧
    (∀ r ∈ regulons, ∀ t ∈ r.genes,
      (r.transcription_factor, t) ∈ edgeKeys (export_regulons regulons)) := by
  unfold export_regulons
  refine ⟨nodup_nodeNames_export_fold _ _ (by simp [nodeNames, DiGraph.empty]),
    ?_, ?_⟩
  · intro s
    rw [mem_nodeNames_export_fold]
    simp [nodeNames, DiGraph.empty]
  · intro r hr t ht
    rw [mem_edgeKeys_export_fold]
    left
    obtain ⟨p, hp, hpt⟩ := List.mem_map.mp ht
    exact ⟨r, hr, p, hp, by rw [hpt]⟩

/-- Witness for C8: two regulons sharing target `g1` — node names are nodup
(one `g1` node), and both edges `TF1→g1` and `TF2→g1` exist. -/
theorem graph_dedup_witness :
    (nodeNames (export_regulons [sampleReg1, sampleReg2])).Nodup ∧
    "g1" ∈ nodeNames (export_regulons [sampleReg1, sampleReg2]) ∧
    ("TF1", "g1") ∈ edgeKeys (export_regulons [sampleReg1, sampleReg2]) ∧
    ("TF2", "g1") ∈ edgeKeys (export_regulons [sampleReg1, sampleReg2]) :=
  ⟨(graph_dedup [sampleReg1, sampleReg2]).1,
   ((graph_dedup [sampleReg1, sampleReg2]).2.1 "g1").mpr
     ⟨sampleReg1, List.mem_cons_self _ _, Or.inr (by decide)⟩,
   (graph_dedup [sampleReg1, sampleReg2]).2.2 sampleReg1
     (List.mem_cons_self _ _) "g1" (by decide),
   (graph_dedup [sampleReg1, sampleReg2]).2.2 sampleReg2
     (List.mem_cons_of_mem _ (List.mem_cons_self _ _)) "g1" (by decide)⟩

/-- C9: the activating/inhibiting classification is derived once per regulon —
activating exactly when the context tag set contains `"activating"` — and for
every (TF, target) pair of the regulon, the final graph after folding the
regulon in (over any prior graph) carries an edge whose `interaction` label
and a target node whose `group` role follow that classification, the edge's
`weight` is the regulon's stored weight for the target, and every context tag
is merged onto both the edge and the target node.  (The tag-key hypotheses
keep the context inside the keyword-argument behaviour the source relies on:
a context tag named `group`, `weight` or `interaction` would make the Python
call itself ill-formed.) -/
theorem regulon_edge_attributes
    (g0 : DiGraph) (r : Regulon) (target : String) (w : Rat)
    (htgt : (target, w) ∈ r.gene2weight)
    (hnd : (r.gene2weight.map Prod.fst).Nodup)
    (hck : (r.context.map Prod.fst).Nodup)
    (hctx : ∀ k ∈ r.context.map Prod.fst,
      k ≠ "group" ∧ k ≠ "weight" ∧ k ≠ "interaction") :
    (edgeType r = if "activating" ∈ r.context.map Prod.fst
      then "activating" else "inhibiting") ∧
    (nodeType r = if "activating" ∈ r.context.map Prod.fst
      then "activated_target" else "inhibited_target") ∧
    ∃ ea na,
      edgeAttrs (addRegulon g0 r) (r.transcription_factor, target) = some ea ∧
      nodeAttrs (addRegulon g0 r) target = some na ∧
      ea.lookup "interaction" = some (.str (edgeType r)) ∧
      ea.lookup "weight" = some (.num w) ∧
      na.lookup "group" = some (.str (nodeType r)) ∧
      (∀ k v, (k, v) ∈ r.context →
        ea.lookup k = some (.str v) ∧ na.lookup k = some (.str v)) := by
  have hwni : "weight" ∉ (ctxAttrs r.context).map Prod.fst := by
    rw [ctxAttrs_keys]
    intro hmem
    exact (hctx _ hmem).2.1 rfl
  have hini : "interaction" ∉ (ctxAttrs r.context).map Prod.fst := by
    rw [ctxAttrs_keys]
    intro hmem
    exact (hctx _ hmem).2.2 rfl
  have hgni : "group" ∉ (ctxAttrs r.context).map Prod.fst := by
    rw [ctxAttrs_keys]
    intro hmem
    exact (hctx _ hmem).1 rfl
  have hcknd : ((ctxAttrs r.context).map Prod.fst).Nodup := by
    rw [ctxAttrs_keys]
    exact hck
  refine ⟨?_, ?_, ?_⟩
  · by_cases h : "activating" ∈ r.context.map Prod.fst
    · rw [if_pos h]
      unfold edgeType
      rw [if_pos ((regulonIsActivating_iff r).mpr h)]
    · rw [if_neg h]
      unfold edgeType
      rw [if_neg (fun hc => h ((regulonIsActivating_iff r).mp hc))]
  · by_cases h : "activating" ∈ r.context.map Prod.fst
    · rw [if_pos h]
      unfold nodeType
      rw [if_pos ((regulonIsActivating_iff r).mpr h)]
    · rw [if_neg h]
      unfold nodeType
      rw [if_neg (fun hc => h ((regulonIsActivating_iff r).mp hc))]
  · obtain ⟨⟨olde, he⟩, ⟨oldn, hn⟩⟩ := addRegulon_attrs g0 r target w htgt hnd
    refine ⟨_, _, he, hn, ?_, ?_, ?_, ?_⟩
    · rw [dupdate_cons, dupdate_cons, dupdate_lookup_not_mem _ _ _ hini,
        dinsert_lookup, if_pos rfl]
    · rw [dupdate_cons, dupdate_cons]
      dsimp only
      rw [dupdate_lookup_not_mem _ _ _ hwni, dinsert_lookup,
        if_neg (by decide : ¬("weight" = "interaction")), dinsert_lookup,
        if_pos rfl]
    · rw [dupdate_cons, dupdate_lookup_not_mem _ _ _ hgni, dinsert_lookup,
        if_pos rfl]
    · intro k v hkv
      have hmem : (k, AttrVal.str v) ∈ ctxAttrs r.context :=
        List.mem_map_of_mem (fun p => (p.1, AttrVal.str p.2)) hkv
      constructor
      · rw [dupdate_cons, dupdate_cons]
        exact dupdate_lookup_mem _ _ _ _ hcknd hmem
      · rw [dupdate_cons]
        exact dupdate_lookup_mem _ _ _ _ hcknd hmem

/-- Witness for C9: folding `sampleReg1` (activating, weight 1/2 on `g2`) into
the empty graph yields the stated edge and node attributes for target `g2`. -/
theorem regulon_edge_attributes_witness :
    (edgeType sampleReg1 = if "activating" ∈ sampleReg1.context.map Prod.fst
      then "activating" else "inhibiting") ∧
    (nodeType sampleReg1 = if "activating" ∈ sampleReg1.context.map Prod.fst
      then "activated_target" else "inhibited_target") ∧
    ∃ ea na,
      edgeAttrs (addRegulon DiGraph.empty sampleReg1)
        (sampleReg1.transcription_factor, "g2") = some ea ∧
      nodeAttrs (addRegulon DiGraph.empty sampleReg1) "g2" = some na ∧
      ea.lookup "interaction" = some (.str (edgeType sampleReg1)) ∧
      ea.lookup "weight" = some (.num (1/2)) ∧
      na.lookup "group" = some (.str (nodeType sampleReg1)) ∧
      (∀ k v, (k, v) ∈ sampleReg1.context →
        ea.lookup k = some (.str v) ∧ na.lookup k = some (.str v)) :=
  regulon_edge_attributes DiGraph.empty sampleReg1 "g2" (1/2)
    (List.mem_cons_of_mem _ (List.mem_cons_self _ _))
    (by decide) (by decide) (by decide)

end PyScenic
